import Mathlib

/-!
Verification development for the DICOM serving server (src/main.go, with an
earlier revision of the same program in src/unnamed/part_000).

The heart of the program is the `GET /:id/image` handler (src/main.go lines
127-176): an errgroup with a producer goroutine driving
`dicom.ParseUntilEOF(file, framechan)`, a consumer goroutine taking the first
frame off the unbuffered channel, and a drain goroutine spawned by the
consumer.  We embed that handler as a small-step transition system:

* `Scenario` fixes the behaviour of the external collaborators for one
  request: the list of frames the parser emits in parse order, whether the
  parse ends in an error, and whether `f.GetImage()` / `png.Encode` succeed
  on the first frame.  Per the spec's external-interface contract (spec.md
  section 6), `ParseUntilEOF` sends every decoded frame on the channel in
  order, closes the channel unconditionally when parsing terminates, and
  then returns its error; it does not observe any context.
* `St` is the instantaneous state of one request: the program counter of
  each of the three goroutines, the channel-closed flag, the errgroup
  context's cancellation flag, the errgroup first-error slot, the committed
  HTTP response, and bookkeeping of which frames each receiver got.
* `Step` is the interleaving small-step relation.  An unbuffered channel
  send is a rendezvous: it is one joint step with the receiver.  A `select`
  with several ready branches is nondeterministic, hence several `Step`
  rules can be enabled at once.  External cancellation (client disconnect /
  deadline on the gin request context) is the environment rule `envCancel`.
* `Reach` is the reflexive-transitive closure, and `allDone` says all three
  goroutines have returned, i.e. `grp.Wait()` (line 175) has returned.

The errgroup semantics embedded in the return rules is that of
golang.org/x/sync/errgroup: the first goroutine to return a non-nil error
records it (`noteReturn`) and cancels the group context; later errors are
discarded; `Wait` returns the recorded first error (`St.slot`).
-/

set_option maxHeartbeats 1600000

namespace DicomServing

/-- Go error values that can flow through the image handler's errgroup
(src/main.go).  `noContent` is the `NewStatusError(http.StatusNoContent, ...)`
built on line 143; `parseFail` is an error from `dicom.ParseUntilEOF`;
`decodeFail` an error from `f.GetImage()`; `encodeFail` an error from
`png.Encode`; `ctxCanceled` the value of `c.Err()` once the errgroup context
is cancelled. -/
inductive GoErr
  | parseFail
  | noContent
  | decodeFail
  | encodeFail
  | ctxCanceled
  deriving DecidableEq, Repr

/-- The `ErrorHandler` middleware's status classification (src/main.go lines
54-65): if the error `errors.As`-matches `StatusError` the response uses the
carried status (only the line 143 error does, carrying 204), otherwise
`http.StatusInternalServerError` (500). -/
def statusOf : GoErr → Nat
  | .noContent => 204
  | _ => 500

/-- The behaviour of the external collaborators during one request:
`frames` are the decoded units `ParseUntilEOF` emits, in parse order;
`parseOk` is whether the parse terminates without error; `decodeOk` and
`encodeOk` are whether `f.GetImage()` and `png.Encode` succeed on the first
frame. -/
structure Scenario where
  frames : List Nat
  parseOk : Bool
  decodeOk : Bool
  encodeOk : Bool
  deriving DecidableEq, Repr

/-- Producer goroutine program counter (src/main.go lines 136-139):
`run pending` means the parser still has `pending` frames to send (when
`pending` is nonempty it is at the channel send of the head); `closed` means
it has closed `framechan` and is about to return; `done res` means the
goroutine returned `res` to the errgroup. -/
inductive ProdState
  | run (pending : List Nat)
  | closed
  | done (res : Option GoErr)
  deriving DecidableEq, Repr

/-- Consumer goroutine program counter (src/main.go lines 140-174):
`waiting` is the blocking receive `f, ok := <-framechan` on line 141;
`received f` is immediately after a successful receive, before the
`grp.Go` on line 147 spawning the drain; `processing f` is after the drain
was spawned, at the `f.GetImage()` / `png.Encode` / `DataFromReader` block;
`done res` means the goroutine returned `res`. -/
inductive ConsState
  | waiting
  | received (f : Nat)
  | processing (f : Nat)
  | done (res : Option GoErr)
  deriving DecidableEq, Repr

/-- Drain goroutine program counter (src/main.go lines 147-159): `off` means
not spawned, `loop` means inside the `for`/`select` loop, `done res` means it
returned `res`. -/
inductive DrainState
  | off
  | loop
  | done (res : Option GoErr)
  deriving DecidableEq, Repr

/-- Instantaneous state of one `GET /:id/image` request.  `chClosed` is the
`framechan` closed flag; `cancelled` is whether the errgroup context `c` is
cancelled (first error or external cancellation); `slot` is the errgroup
first-error slot returned by `grp.Wait()`; `resp` is the committed HTTP
response `(status, frame)` written by `ctx.DataFromReader` (headers are
flushed on first write, so it is write-once); `consGot` is the frame the
consumer received on line 141, `drained` the frames the drain received, in
order. -/
structure St where
  prod : ProdState
  cons : ConsState
  drain : DrainState
  chClosed : Bool
  cancelled : Bool
  slot : Option GoErr
  resp : Option (Nat × Nat)
  consGot : Option Nat
  drained : List Nat
  deriving DecidableEq, Repr

/-- errgroup first-error recording: a goroutine returning `r` stores it in
the slot only if the slot is still empty (`errOnce.Do` in errgroup). -/
def noteReturn : Option GoErr → Option GoErr → Option GoErr
  | some e, _ => some e
  | none, r => r

/-- Result of the producer goroutine: the error of `dicom.ParseUntilEOF`. -/
def prodRes (sc : Scenario) : Option GoErr :=
  if sc.parseOk then none else some .parseFail

/-- Result of the consumer goroutine on the unit-received path: `GetImage`
failure, else `png.Encode` failure, else success (src/main.go lines
161-173). -/
def consRes (sc : Scenario) : Option GoErr :=
  if sc.decodeOk then (if sc.encodeOk then none else some .encodeFail)
  else some .decodeFail

/-- Write-once commit of the HTTP response: once headers and body have been
written, a later write cannot replace them. -/
def commitResp : Option (Nat × Nat) → Nat × Nat → Option (Nat × Nat)
  | some y, _ => some y
  | none, x => some x

/-- Frames the producer still has to send. -/
def pendingOf : ProdState → List Nat
  | .run p => p
  | _ => []

def prodDone : ProdState → Bool
  | .done _ => true
  | _ => false

def consDone : ConsState → Bool
  | .done _ => true
  | _ => false

def isReceived : ConsState → Bool
  | .received _ => true
  | _ => false

def isProcessing : ConsState → Bool
  | .processing _ => true
  | _ => false

def drainSpawned : DrainState → Bool
  | .off => false
  | _ => true

def drainFinished : DrainState → Bool
  | .loop => false
  | _ => true

/-- All three goroutines have returned (the drain possibly never spawned),
i.e. `grp.Wait()` on line 175 has returned. -/
def allDone (σ : St) : Bool :=
  prodDone σ.prod && consDone σ.cons && drainFinished σ.drain

/-- The value `grp.Wait()` returns: the first recorded error, else nil. -/
def waitResult (σ : St) : Option GoErr :=
  σ.slot

/-- The status of the HTTP response the client ends up with: if a response
was already committed (`ctx.DataFromReader`), its status stands — a later
error write by `ErrorHandler` cannot change flushed headers; otherwise the
`ErrorHandler` classification of the error returned by `grp.Wait()` (200 on
nil). -/
def finalStatus (σ : St) : Nat :=
  match σ.resp with
  | some (s, _) => s
  | none =>
    match σ.slot with
    | none => 200
    | some e => statusOf e

/-- Initial state of the handler, right after `grp.Go` spawned the producer
and the consumer (src/main.go lines 134-141). -/
def init (sc : Scenario) : St :=
  { prod := .run sc.frames, cons := .waiting, drain := .off,
    chClosed := false, cancelled := false, slot := none,
    resp := none, consGot := none, drained := [] }

/-- Interleaving small-step relation of the `GET /:id/image` pipeline.

* `sendCons` / `sendDrain`: rendezvous of the producer's channel send with
  the consumer's line 141 receive, resp. the drain's line 152 receive.
* `closeChan`: `ParseUntilEOF` closes `framechan` when parsing terminates.
* `prodRet` / `consClosed` / `consProc` / `drainClosed` / `drainCancel`:
  goroutine returns, recording into the errgroup slot; a non-nil first error
  cancels the group context.
* `consSpawn`: line 147, the consumer spawns the drain.
* `drainCancel`: the `case <-c.Done(): return c.Err()` branch, enabled once
  the context is cancelled.
* `envCancel`: external cancellation of the surrounding request context
  (client disconnect or deadline), which the errgroup context inherits.

The producer has no rule observing `cancelled`: `dicom.ParseUntilEOF` takes
no context, and the consumer's line 141 receive likewise does not select on
`c.Done()`. -/
inductive Step (sc : Scenario) : St → St → Prop
  | sendCons : ∀ σ u p, σ.prod = .run (u :: p) → σ.cons = .waiting →
      Step sc σ { σ with prod := .run p, cons := .received u, consGot := some u }
  | sendDrain : ∀ σ u p, σ.prod = .run (u :: p) → σ.drain = .loop →
      Step sc σ { σ with prod := .run p, drained := σ.drained ++ [u] }
  | closeChan : ∀ σ, σ.prod = .run [] →
      Step sc σ { σ with prod := .closed, chClosed := true }
  | prodRet : ∀ σ, σ.prod = .closed →
      Step sc σ { σ with prod := .done (prodRes sc),
                         slot := noteReturn σ.slot (prodRes sc),
                         cancelled := σ.cancelled || (prodRes sc).isSome }
  | consClosed : ∀ σ, σ.cons = .waiting → σ.chClosed = true →
      Step sc σ { σ with cons := .done (some .noContent),
                         slot := noteReturn σ.slot (some .noContent),
                         cancelled := true }
  | consSpawn : ∀ σ f, σ.cons = .received f →
      Step sc σ { σ with cons := .processing f, drain := .loop }
  | consProc : ∀ σ f, σ.cons = .processing f →
      Step sc σ { σ with cons := .done (consRes sc),
                         slot := noteReturn σ.slot (consRes sc),
                         cancelled := σ.cancelled || (consRes sc).isSome,
                         resp := if (consRes sc).isNone then commitResp σ.resp (200, f)
                                 else σ.resp }
  | drainClosed : ∀ σ, σ.drain = .loop → σ.chClosed = true →
      Step sc σ { σ with drain := .done none }
  | drainCancel : ∀ σ, σ.drain = .loop → σ.cancelled = true →
      Step sc σ { σ with drain := .done (some .ctxCanceled),
                         slot := noteReturn σ.slot (some .ctxCanceled) }
  | envCancel : ∀ σ, σ.cancelled = false →
      Step sc σ { σ with cancelled := true }

/-- Reflexive-transitive closure of `Step`: the states one request can pass
through. -/
inductive Reach (sc : Scenario) : St → St → Prop
  | refl : ∀ σ, Reach sc σ σ
  | step : ∀ a b c, Reach sc a b → Step sc b c → Reach sc a c

/-- Invariance principle: a property preserved by every step holds along
every reachable state. -/
theorem reach_invariant {sc : Scenario} (P : St → Prop)
    (hstep : ∀ σ σ', P σ → Step sc σ σ' → P σ') :
    ∀ a b, Reach sc a b → P a → P b := by
  intro a b h
  induction h with
  | refl => exact fun hp => hp
  | step x y _ hs ih => exact fun hp => hstep x y (ih hp) hs

/-- Structural invariant of the pipeline: the parse-order frame list splits
into the consumer's (at most one) frame, the drain's frames in order, and the
frames the producer still has to send; the drain receives nothing before the
consumer's receive; the drain is spawned exactly on the unit-received path,
at the `grp.Go` between the line 141 receive and the line 161 `GetImage`;
after the channel is closed nothing remains to send. -/
def PipelineInv (sc : Scenario) (σ : St) : Prop :=
  sc.frames = σ.consGot.toList ++ σ.drained ++ pendingOf σ.prod
  ∧ (σ.consGot = none → σ.drained = [])
  ∧ (σ.cons = .waiting → σ.consGot = none)
  ∧ (∀ f, σ.cons = .received f → σ.consGot = some f)
  ∧ (∀ f, σ.cons = .processing f → σ.consGot = some f)
  ∧ drainSpawned σ.drain = (isProcessing σ.cons || (consDone σ.cons && σ.consGot.isSome))
  ∧ (σ.chClosed = true → pendingOf σ.prod = [])

theorem pipeline_inv_init (sc : Scenario) : PipelineInv sc (init sc) := by
  simp [PipelineInv, init, pendingOf, drainSpawned, isProcessing, consDone]

theorem pipeline_inv_step (sc : Scenario) :
    ∀ σ σ', PipelineInv sc σ → Step sc σ σ' → PipelineInv sc σ' := by
  rintro σ σ' ⟨h1, h2, h3, h4, h5, h6, h7⟩ hs
  cases hs with
  | sendCons u p hp hc =>
      have hg : σ.consGot = none := h3 hc
      have hd : σ.drained = [] := h2 hg
      rw [hp] at h1 h7
      rw [hc] at h6
      refine ⟨?_, ?_, ?_, ?_, ?_, ?_, ?_⟩ <;>
        simp_all [pendingOf, drainSpawned, isProcessing, isReceived, consDone]
  | sendDrain u p hp hdr =>
      have hg : σ.consGot.isSome = true := by
        rw [hdr] at h6
        rcases hcons : σ.cons with _ | f | f | r
        · rw [hcons] at h6; simp [drainSpawned, isProcessing, consDone] at h6
        · rw [hcons] at h6; simp [drainSpawned, isProcessing, consDone] at h6
        · simp [h5 f hcons]
        · rw [hcons] at h6
          simp [drainSpawned, isProcessing, consDone] at h6
          exact h6
      rw [hp] at h1 h7
      refine ⟨?_, ?_, ?_, ?_, ?_, ?_, ?_⟩ <;>
        simp_all [pendingOf, drainSpawned, isProcessing, isReceived, consDone,
          Option.isSome_iff_ne_none]
  | closeChan hp =>
      rw [hp] at h1 h7
      refine ⟨?_, ?_, ?_, ?_, ?_, ?_, ?_⟩ <;>
        simp_all [pendingOf, drainSpawned, isProcessing, isReceived, consDone]
  | prodRet hp =>
      rw [hp] at h1 h7
      refine ⟨?_, ?_, ?_, ?_, ?_, ?_, ?_⟩ <;>
        simp_all [pendingOf, drainSpawned, isProcessing, isReceived, consDone]
  | consClosed hc hcl =>
      have hg : σ.consGot = none := h3 hc
      rw [hc] at h6
      refine ⟨?_, ?_, ?_, ?_, ?_, ?_, ?_⟩ <;>
        simp_all [pendingOf, drainSpawned, isProcessing, isReceived, consDone]
  | consSpawn f hc =>
      have hg : σ.consGot = some f := h4 f hc
      rw [hc] at h6
      refine ⟨?_, ?_, ?_, ?_, ?_, ?_, ?_⟩ <;>
        simp_all [pendingOf, drainSpawned, isProcessing, isReceived, consDone]
  | consProc f hc =>
      have hg : σ.consGot = some f := h5 f hc
      rw [hc] at h6
      refine ⟨?_, ?_, ?_, ?_, ?_, ?_, ?_⟩ <;>
        simp_all [pendingOf, drainSpawned, isProcessing, isReceived, consDone]
  | drainClosed hdr hcl =>
      rw [hdr] at h6
      refine ⟨?_, ?_, ?_, ?_, ?_, ?_, ?_⟩ <;>
        simp_all [pendingOf, drainSpawned, isProcessing, isReceived, consDone]
  | drainCancel hdr hca =>
      rw [hdr] at h6
      refine ⟨?_, ?_, ?_, ?_, ?_, ?_, ?_⟩ <;>
        simp_all [pendingOf, drainSpawned, isProcessing, isReceived, consDone]
  | envCancel hca =>
      exact ⟨h1, h2, h3, h4, h5, h6, h7⟩

theorem pipeline_inv_reach (sc : Scenario) (σ : St)
    (h : Reach sc (init sc) σ) : PipelineInv sc σ :=
  reach_invariant (PipelineInv sc) (pipeline_inv_step sc) (init sc) σ h
    (pipeline_inv_init sc)

/-- C6: for every input whose parser emits `u :: rest` (N ≥ 1 frames, `u`
first in parse order), in every execution in which all three goroutines
terminate (`grp.Wait` returns), the consumer's single received frame is `u`
— the first in parse order, and it receives no other — and the drain
received exactly the remaining frames `rest`, each exactly once and in
order; no frame is delivered to more than one receiver (each send is a
rendezvous with exactly one of them, and `consGot`/`drained` partition the
sent frames). -/
theorem consumer_first_drain_rest (sc : Scenario) (u : Nat) (rest : List Nat)
    (hf : sc.frames = u :: rest) (σ : St)
    (hr : Reach sc (init sc) σ) (hd : allDone σ = true) :
    σ.consGot = some u ∧ σ.drained = rest := by
  obtain ⟨h1, h2, _, _, _, _, _⟩ := pipeline_inv_reach sc σ hr
  have hpend : pendingOf σ.prod = [] := by
    simp only [allDone, Bool.and_eq_true] at hd
    rcases hprod : σ.prod with p | _ | r
    · rw [hprod] at hd; simp [prodDone] at hd
    · simp [pendingOf]
    · simp [pendingOf]
  rw [hpend, hf] at h1
  rcases hcg : σ.consGot with _ | f
  · rw [hcg] at h1 h2
    simp at h2
    rw [h2] at h1
    simp at h1
  · rw [hcg] at h1
    simp at h1
    exact ⟨by rw [h1.1], h1.2.symm⟩

/-- Scenario A of the spec: three decodable frames, everything succeeds. -/
def scA : Scenario := ⟨[1, 2, 3], true, true, true⟩

def c6S1 : St := ⟨.run [2, 3], .received 1, .off, false, false, none, none, some 1, []⟩

def c6S2 : St := ⟨.run [2, 3], .processing 1, .loop, false, false, none, none, some 1, []⟩

def c6S3 : St := ⟨.run [3], .processing 1, .loop, false, false, none, none, some 1, [2]⟩

def c6S4 : St := ⟨.run [], .processing 1, .loop, false, false, none, none, some 1, [2, 3]⟩

def c6S5 : St := ⟨.closed, .processing 1, .loop, true, false, none, none, some 1, [2, 3]⟩

def c6S6 : St := ⟨.done none, .processing 1, .loop, true, false, none, none, some 1, [2, 3]⟩

def c6S7 : St := ⟨.done none, .done none, .loop, true, false, none, some (200, 1), some 1, [2, 3]⟩

def c6S8 : St := ⟨.done none, .done none, .done none, true, false, none, some (200, 1), some 1, [2, 3]⟩

theorem reach_scenarioA : Reach scA (init scA) c6S8 := by
  refine Reach.step _ c6S7 _ ?_ (Step.drainClosed c6S7 rfl rfl)
  refine Reach.step _ c6S6 _ ?_ (Step.consProc c6S6 1 rfl)
  refine Reach.step _ c6S5 _ ?_ (Step.prodRet c6S5 rfl)
  refine Reach.step _ c6S4 _ ?_ (Step.closeChan c6S4 rfl)
  refine Reach.step _ c6S3 _ ?_ (Step.sendDrain c6S3 3 [] rfl rfl)
  refine Reach.step _ c6S2 _ ?_ (Step.sendDrain c6S2 2 [3] rfl rfl)
  refine Reach.step _ c6S1 _ ?_ (Step.consSpawn c6S1 1 rfl)
  exact Reach.step _ _ _ (Reach.refl _) (Step.sendCons (init scA) 1 [2, 3] rfl rfl)

theorem consumer_first_drain_rest_witness :
    c6S8.consGot = some 1 ∧ c6S8.drained = [2, 3] :=
  consumer_first_drain_rest scA 1 [2, 3] rfl c6S8 reach_scenarioA (by decide)

/-- C2: in every reachable state of the handler, the drain is spawned if and
only if the consumer is past the `grp.Go` of line 147 on the unit-received
path — i.e. at the materialize/encode block or already returned after
receiving a frame.  Hence at every point where the consumer has permanently
stopped receiving on the unit path a drain is already running; the drain is
never spawned on the empty-channel path (`consGot = none`); and (second
conjunct) the only step that turns the drain on is taken from the
consumer's `received` state, immediately after its single receive and
before any `GetImage`/`png.Encode` work — so it is spawned exactly once. -/
theorem drain_spawned_iff_past_receive :
    (∀ sc σ, Reach sc (init sc) σ →
      drainSpawned σ.drain = (isProcessing σ.cons || (consDone σ.cons && σ.consGot.isSome)))
    ∧ (∀ sc σ σ', Step sc σ σ' → σ.drain = .off → drainSpawned σ'.drain = true →
        isReceived σ.cons = true) := by
  constructor
  · intro sc σ h
    exact (pipeline_inv_reach sc σ h).2.2.2.2.2.1
  · intro sc σ σ' hs hoff hsp
    cases hs <;> simp_all [drainSpawned, isReceived]

theorem drain_spawned_iff_past_receive_witness :
    drainSpawned c6S2.drain
        = (isProcessing c6S2.cons || (consDone c6S2.cons && c6S2.consGot.isSome))
    ∧ isReceived c6S1.cons = true := by
  constructor
  · refine drain_spawned_iff_past_receive.1 scA c6S2 ?_
    refine Reach.step _ c6S1 _ ?_ (Step.consSpawn c6S1 1 rfl)
    exact Reach.step _ _ _ (Reach.refl _) (Step.sendCons (init scA) 1 [2, 3] rfl rfl)
  · exact drain_spawned_iff_past_receive.2 scA c6S1 c6S2
      (Step.consSpawn c6S1 1 rfl) rfl (by decide)

/-- Invariant of every request whose parse emits no frame and succeeds
(Scenario B): the producer runs through `run [] → closed → done nil`, the
consumer can only take the channel-closed path and return the 204
`StatusError`, the drain is never spawned, no response body is written, and
the only error ever recorded is `noContent`. -/
def EmptyOkInv (σ : St) : Prop :=
  (σ.prod = .run [] ∨ σ.prod = .closed ∨ σ.prod = .done none)
  ∧ (σ.cons = .waiting ∨ σ.cons = .done (some .noContent))
  ∧ σ.drain = .off
  ∧ σ.resp = none
  ∧ (σ.slot = none ∨ σ.slot = some .noContent)
  ∧ (consDone σ.cons = true → σ.slot = some .noContent)

theorem emptyOk_inv_step (sc : Scenario) (hf : sc.frames = [])
    (hp : sc.parseOk = true) :
    ∀ σ σ', EmptyOkInv σ → Step sc σ σ' → EmptyOkInv σ' := by
  rintro σ σ' ⟨h1, h2, h3, h4, h5, h6⟩ hs
  cases hs <;>
    simp_all [EmptyOkInv, noteReturn, prodRes, consDone] <;>
    rcases h5 with h5 | h5 <;> simp_all [noteReturn]

/-- C3: for every input whose parse terminates successfully with zero
decodable frames, in every complete execution the consumer observes the
channel closed with nothing received, the recorded outcome is the 204
`NoContent` status error — `grp.Wait` returns it and the `ErrorHandler`
classifies it as 204, not as a 5xx failure — the producer returned nil, and
the drain never ran, so no task of the pipeline reports a failure. -/
theorem empty_input_no_content (sc : Scenario) (hf : sc.frames = [])
    (hp : sc.parseOk = true) (σ : St) (hr : Reach sc (init sc) σ)
    (hd : allDone σ = true) :
    waitResult σ = some GoErr.noContent ∧ σ.prod = .done none
    ∧ σ.drain = .off ∧ σ.cons = .done (some GoErr.noContent)
    ∧ finalStatus σ = 204 := by
  have hinit : EmptyOkInv (init sc) := by
    simp [EmptyOkInv, init, hf, consDone]
  obtain ⟨h1, h2, h3, h4, h5, h6⟩ :=
    reach_invariant EmptyOkInv (emptyOk_inv_step sc hf hp) (init sc) σ hr hinit
  simp only [allDone, Bool.and_eq_true] at hd
  have hcons : σ.cons = .done (some .noContent) := by
    rcases h2 with h2 | h2
    · rw [h2] at hd; simp [consDone] at hd
    · exact h2
  have hslot : σ.slot = some .noContent := h6 (by rw [hcons]; rfl)
  have hprod : σ.prod = .done none := by
    rcases h1 with h1 | h1 | h1
    · rw [h1] at hd; simp [prodDone] at hd
    · rw [h1] at hd; simp [prodDone] at hd
    · exact h1
  refine ⟨hslot, hprod, h3, hcons, ?_⟩
  simp [finalStatus, h4, hslot, statusOf]

/-- Scenario B of the spec: a successful parse that emits no frame. -/
def scB : Scenario := ⟨[], true, true, true⟩

def c3S1 : St := ⟨.closed, .waiting, .off, true, false, none, none, none, []⟩

def c3S2 : St := ⟨.done none, .waiting, .off, true, false, none, none, none, []⟩

def c3S3 : St :=
  ⟨.done none, .done (some .noContent), .off, true, true, some .noContent, none, none, []⟩

theorem reach_scenarioB : Reach scB (init scB) c3S3 := by
  refine Reach.step _ c3S2 _ ?_ (Step.consClosed c3S2 rfl rfl)
  refine Reach.step _ c3S1 _ ?_ (Step.prodRet c3S1 rfl)
  exact Reach.step _ _ _ (Reach.refl _) (Step.closeChan (init scB) rfl)

theorem empty_input_no_content_witness :
    waitResult c3S3 = some GoErr.noContent ∧ c3S3.prod = .done none
    ∧ c3S3.drain = .off ∧ c3S3.cons = .done (some GoErr.noContent)
    ∧ finalStatus c3S3 = 204 :=
  empty_input_no_content scB rfl rfl c3S3 reach_scenarioB (by decide)

/-- Invariant of every request whose parse emits no frame and fails
(Scenario C): the consumer can still only take the channel-closed path, so
the recorded first error is either the producer's parse error or the
consumer's 204 status error, whichever was recorded first. -/
def EmptyFailInv (σ : St) : Prop :=
  (σ.prod = .run [] ∨ σ.prod = .closed ∨ σ.prod = .done (some .parseFail))
  ∧ (σ.cons = .waiting ∨ σ.cons = .done (some .noContent))
  ∧ σ.drain = .off
  ∧ (σ.slot = none ∨ σ.slot = some .parseFail ∨ σ.slot = some .noContent)
  ∧ (consDone σ.cons = true → σ.slot.isSome = true)

theorem emptyFail_inv_step (sc : Scenario) (hf : sc.frames = [])
    (hp : sc.parseOk = false) :
    ∀ σ σ', EmptyFailInv σ → Step sc σ σ' → EmptyFailInv σ' := by
  rintro σ σ' ⟨h1, h2, h3, h4, h5⟩ hs
  cases hs <;>
    simp_all [EmptyFailInv, noteReturn, prodRes, consDone] <;>
    rcases h4 with h4 | h4 | h4 <;> simp_all [noteReturn]

/-- C7 amended: if the producer fails strictly before emitting any unit,
the request's outcome is either the producer's `ParseFailure` or the
consumer's 204 `NoContent` status error — namely whichever of the two was
recorded into the errgroup's first-error slot first.  The claim as frozen
(`never NoContent`) only holds for the interleavings in which the
producer's error is recorded before the consumer's; the opposite
interleaving is exhibited by the counterexample theorem. -/
theorem parse_fail_empty_outcome (sc : Scenario) (hf : sc.frames = [])
    (hp : sc.parseOk = false) (σ : St) (hr : Reach sc (init sc) σ)
    (hd : allDone σ = true) :
    waitResult σ = some GoErr.parseFail ∨ waitResult σ = some GoErr.noContent := by
  have hinit : EmptyFailInv (init sc) := by
    simp [EmptyFailInv, init, hf, consDone]
  obtain ⟨h1, h2, h3, h4, h5⟩ :=
    reach_invariant EmptyFailInv (emptyFail_inv_step sc hf hp) (init sc) σ hr hinit
  simp only [allDone, Bool.and_eq_true] at hd
  have hcons : σ.cons = .done (some .noContent) := by
    rcases h2 with h2 | h2
    · rw [h2] at hd; simp [consDone] at hd
    · exact h2
  have hsome : σ.slot.isSome = true := h5 (by rw [hcons]; rfl)
  rcases h4 with h4 | h4 | h4
  · rw [h4] at hsome; simp at hsome
  · exact Or.inl h4
  · exact Or.inr h4

/-- Scenario C of the spec: the parse fails before emitting any frame. -/
def scC : Scenario := ⟨[], false, true, true⟩

def c7S1 : St := ⟨.closed, .waiting, .off, true, false, none, none, none, []⟩

def c7S2 : St :=
  ⟨.closed, .done (some .noContent), .off, true, true, some .noContent, none, none, []⟩

def c7S3 : St :=
  ⟨.done (some .parseFail), .done (some .noContent), .off, true, true,
    some .noContent, none, none, []⟩

theorem reach_scenarioC : Reach scC (init scC) c7S3 := by
  refine Reach.step _ c7S2 _ ?_ (Step.prodRet c7S2 rfl)
  refine Reach.step _ c7S1 _ ?_ (Step.consClosed c7S1 rfl rfl)
  exact Reach.step _ _ _ (Reach.refl _) (Step.closeChan (init scC) rfl)

/-- C7 counterexample: the producer fails strictly before emitting any unit
(`scC`), the channel is closed, and in the complete interleaving in which
the consumer's 204 `NoContent` status error is recorded into the errgroup
slot before the producer's parse error, `grp.Wait` returns the `NoContent`
error and the response status is 204 — the outcome is `NoContent`, not
`ParseFailure`, refuting "never NoContent ... for every interleaving". -/
theorem parse_fail_yields_no_content_interleaving :
    Reach scC (init scC) c7S3 ∧ allDone c7S3 = true
    ∧ waitResult c7S3 = some GoErr.noContent
    ∧ waitResult c7S3 ≠ some GoErr.parseFail
    ∧ finalStatus c7S3 = 204 :=
  ⟨reach_scenarioC, by decide, by decide, by decide, by decide⟩

theorem parse_fail_empty_outcome_witness :
    waitResult c7S3 = some GoErr.parseFail ∨ waitResult c7S3 = some GoErr.noContent :=
  parse_fail_empty_outcome scC rfl rfl c7S3 reach_scenarioC (by decide)

/-- The step from `σ` to `σ'` is precisely the return of one of the three
goroutines with error `e`: the producer returning after closing the
channel, the consumer returning off a non-done state, or the drain
returning out of its loop. -/
def TaskReturn (σ σ' : St) (e : GoErr) : Prop :=
  (σ.prod = .closed ∧ σ'.prod = .done (some e))
  ∨ (consDone σ.cons = false ∧ σ'.cons = .done (some e))
  ∨ (σ.drain = .loop ∧ σ'.drain = .done (some e))

/-- C4: the errgroup's first-error slot — whose content is what `grp.Wait`
returns once all three goroutines are done — is write-once: a recorded
failure is never overwritten by any later step (in particular not by a
consequential cancellation error), and the slot only ever becomes `some e`
at the very step at which one of the three goroutines returns the error
`e`.  Hence the final result is the first failure returned among producer,
consumer and drain, else success. -/
theorem first_error_wins (sc : Scenario) (σ σ' : St) (hs : Step sc σ σ') :
    (∀ e, σ.slot = some e → σ'.slot = some e)
    ∧ (σ.slot = none → ∀ e, σ'.slot = some e → TaskReturn σ σ' e) := by
  cases hs <;>
    refine ⟨fun e he => ?_, fun hn e he => ?_⟩ <;>
    simp_all [noteReturn, TaskReturn, consDone, prodRes, consRes]

theorem first_error_wins_witness : TaskReturn c7S1 c7S2 GoErr.noContent :=
  (first_error_wins scC c7S1 c7S2 (Step.consClosed c7S1 rfl rfl)).2 rfl
    GoErr.noContent rfl

/-- C5 amended: the drain loop (src/main.go lines 147-159) returns nil —
success — when it exits because the channel reported closed, and when it
exits because the shared cancellation signal fired it returns `c.Err()`,
the cancellation error; that return never overwrites an already-recorded
failure in the errgroup slot, but it is NOT always invisible: when it is
the first error recorded (external cancellation with no prior task
failure) it becomes the value `grp.Wait` returns and is classified 500 by
the `ErrorHandler` — the counterexample theorem exhibits this, refuting
"never produces a user-facing failure". -/
theorem drain_exit_classification (sc : Scenario) (σ σ' : St) (r : Option GoErr)
    (hs : Step sc σ σ') (hl : σ.drain = .loop) (hd : σ'.drain = .done r) :
    ((r = none ∧ σ.chClosed = true) ∨ (r = some GoErr.ctxCanceled ∧ σ.cancelled = true))
    ∧ (∀ e, σ.slot = some e → σ'.slot = some e) := by
  cases hs <;>
    refine ⟨?_, fun e he => ?_⟩ <;>
    simp_all [noteReturn]

theorem drain_exit_classification_witness :
    (((none : Option GoErr) = none ∧ c6S7.chClosed = true)
      ∨ ((none : Option GoErr) = some GoErr.ctxCanceled ∧ c6S7.cancelled = true)) :=
  (drain_exit_classification scA c6S7 c6S8 none
    (Step.drainClosed c6S7 rfl rfl) rfl rfl).1

/-- Scenario for the C5 counterexample: one frame, `GetImage` fails. -/
def scE : Scenario := ⟨[1], true, false, true⟩

def c5S1 : St := ⟨.run [], .received 1, .off, false, false, none, none, some 1, []⟩

def c5S2 : St := ⟨.run [], .processing 1, .loop, false, false, none, none, some 1, []⟩

def c5S3 : St := ⟨.closed, .processing 1, .loop, true, false, none, none, some 1, []⟩

def c5S4 : St := ⟨.closed, .processing 1, .loop, true, true, none, none, some 1, []⟩

def c5S5 : St :=
  ⟨.closed, .processing 1, .done (some .ctxCanceled), true, true,
    some .ctxCanceled, none, some 1, []⟩

def c5S6 : St :=
  ⟨.done none, .processing 1, .done (some .ctxCanceled), true, true,
    some .ctxCanceled, none, some 1, []⟩

def c5S7 : St :=
  ⟨.done none, .done (some .decodeFail), .done (some .ctxCanceled), true, true,
    some .ctxCanceled, none, some 1, []⟩

theorem reach_drain_cancel_first : Reach scE (init scE) c5S7 := by
  refine Reach.step _ c5S6 _ ?_ (Step.consProc c5S6 1 rfl)
  refine Reach.step _ c5S5 _ ?_ (Step.prodRet c5S5 rfl)
  refine Reach.step _ c5S4 _ ?_ (Step.drainCancel c5S4 rfl rfl)
  refine Reach.step _ c5S3 _ ?_ (Step.envCancel c5S3 rfl)
  refine Reach.step _ c5S2 _ ?_ (Step.closeChan c5S2 rfl)
  refine Reach.step _ c5S1 _ ?_ (Step.consSpawn c5S1 1 rfl)
  exact Reach.step _ _ _ (Reach.refl _) (Step.sendCons (init scE) 1 [] rfl rfl)

/-- C5 counterexample: a complete execution (one frame received, external
cancellation fires, the drain takes the `<-c.Done()` branch and returns
`c.Err()` as the first recorded error, then the consumer's `GetImage`
failure is discarded as a later error) in which the drain's
cancellation-triggered exit IS the error `grp.Wait` returns, and the
request's user-facing response is the 500 failure classification of that
cancellation error — so that exit is not always mere invisible teardown. -/
theorem drain_cancel_exit_surfaces :
    Reach scE (init scE) c5S7 ∧ allDone c5S7 = true
    ∧ c5S7.drain = .done (some GoErr.ctxCanceled)
    ∧ waitResult c5S7 = some GoErr.ctxCanceled
    ∧ finalStatus c5S7 = 500 :=
  ⟨reach_drain_cancel_first, by decide, by decide, by decide, by decide⟩

/-- C8: once the consumer has successfully materialized and encoded the
image and committed the 200 response (`ctx.DataFromReader`, line 172), that
committed response persists through every subsequent step — in particular
through a producer failure observed later — and the final response the
client gets keeps the committed status: the `Image` outcome is never
retracted or replaced.  (The `ErrorHandler` does attempt `c.JSON` on the
later `grp.Wait` error, but the already-flushed headers cannot change.) -/
theorem image_response_not_retracted (sc : Scenario) (σ τ : St) (s f : Nat)
    (hr : Reach sc σ τ) (hresp : σ.resp = some (s, f)) :
    τ.resp = some (s, f) ∧ finalStatus τ = s := by
  have hmono : τ.resp = some (s, f) := by
    refine reach_invariant (fun x => x.resp = some (s, f)) ?_ σ τ hr hresp
    intro a b hp hs
    cases hs <;> simp_all [commitResp]
  exact ⟨hmono, by simp [finalStatus, hmono]⟩

/-- Scenario for the C8 witness: one frame, decode and encode succeed, and
the parse itself ends in an error after the frame was emitted. -/
def scF : Scenario := ⟨[1], false, true, true⟩

def c8S1 : St := ⟨.run [], .received 1, .off, false, false, none, none, some 1, []⟩

def c8S2 : St := ⟨.run [], .processing 1, .loop, false, false, none, none, some 1, []⟩

def c8S3 : St := ⟨.run [], .done none, .loop, false, false, none, some (200, 1), some 1, []⟩

def c8S4 : St := ⟨.closed, .done none, .loop, true, false, none, some (200, 1), some 1, []⟩

def c8S5 : St :=
  ⟨.done (some .parseFail), .done none, .loop, true, true, some .parseFail,
    some (200, 1), some 1, []⟩

def c8S6 : St :=
  ⟨.done (some .parseFail), .done none, .done none, true, true, some .parseFail,
    some (200, 1), some 1, []⟩

theorem reach_image_then_parse_fail : Reach scF c8S3 c8S6 := by
  refine Reach.step _ c8S5 _ ?_ (Step.drainClosed c8S5 rfl rfl)
  refine Reach.step _ c8S4 _ ?_ (Step.prodRet c8S4 rfl)
  exact Reach.step _ _ _ (Reach.refl _) (Step.closeChan c8S3 rfl)

theorem image_response_not_retracted_witness :
    c8S6.resp = some (200, 1) ∧ finalStatus c8S6 = 200 :=
  image_response_not_retracted scF c8S3 c8S6 200 1 reach_image_then_parse_fail rfl

/-- No step at all is enabled at `σ`: every goroutine is either finished or
permanently blocked. -/
def NoStepFrom (sc : Scenario) (σ : St) : Prop :=
  ∀ τ, ¬ Step sc σ τ

/-- Scenario for the C1 bug: two frames, external cancellation mid-parse. -/
def scD : Scenario := ⟨[1, 2], true, true, true⟩

def c1S1 : St := ⟨.run [2], .received 1, .off, false, false, none, none, some 1, []⟩

def c1S2 : St := ⟨.run [2], .processing 1, .loop, false, false, none, none, some 1, []⟩

def c1S3 : St := ⟨.run [2], .processing 1, .loop, false, true, none, none, some 1, []⟩

def c1S4 : St :=
  ⟨.run [2], .processing 1, .done (some .ctxCanceled), false, true,
    some .ctxCanceled, none, some 1, []⟩

def c1Stuck : St :=
  ⟨.run [2], .done none, .done (some .ctxCanceled), false, true,
    some .ctxCanceled, some (200, 1), some 1, []⟩

theorem reach_stuck_state : Reach scD (init scD) c1Stuck := by
  refine Reach.step _ c1S4 _ ?_ (Step.consProc c1S4 1 rfl)
  refine Reach.step _ c1S3 _ ?_ (Step.drainCancel c1S3 rfl rfl)
  refine Reach.step _ c1S2 _ ?_ (Step.envCancel c1S2 rfl)
  refine Reach.step _ c1S1 _ ?_ (Step.consSpawn c1S1 1 rfl)
  exact Reach.step _ _ _ (Reach.refl _) (Step.sendCons (init scD) 1 [2] rfl rfl)

/-- C1 (refuting the claim; the spec is the intent, the code the slip):
external cancellation fires while the producer is mid-parse of a two-frame
input; the drain, already spawned, takes the `<-c.Done()` branch and exits;
the consumer finishes.  The resulting state is reachable, is not terminal —
the producer still has frame 2 to send and is blocked on the channel send —
and NO step is enabled from it: `dicom.ParseUntilEOF` takes no context, so
cancellation never reaches the producer, which stays blocked forever, and
`grp.Wait` never returns.  All three tasks do NOT terminate after external
cancellation, contradicting the claim (and spec.md section 4.4). -/
theorem producer_stuck_after_cancel :
    Reach scD (init scD) c1Stuck ∧ NoStepFrom scD c1Stuck
    ∧ allDone c1Stuck = false ∧ pendingOf c1Stuck.prod = [2]
    ∧ c1Stuck.cancelled = true := by
  refine ⟨reach_stuck_state, ?_, by decide, by decide, by decide⟩
  intro τ h
  cases h <;> simp_all [c1Stuck]

/-!
Comparison of the two drain loops (claim C9).  A drain loop reacts to a
sequence of `select` outcomes: either the `<-c.Done()` branch fires, or the
`<-framechan` branch fires with `some v` (a frame was received) or with
`none` (the channel is closed, so the receive yields the zero value with
`ok = false`).  Each loop body either returns a result (`some r`, with
`r : Option GoErr` the goroutine's return value) or continues (`none`).
-/

/-- One `select` outcome observed by a drain loop iteration. -/
inductive DrainEv
  | done
  | recv (v : Option Nat)
  deriving DecidableEq, Repr

/-- Loop body of the drain in src/main.go lines 148-158: on `<-c.Done()`
return `c.Err()`; on a received frame continue; on channel closed
(`ok = false`) return nil. -/
def mainDrainStep : DrainEv → Option (Option GoErr)
  | .done => some (some .ctxCanceled)
  | .recv (some _) => none
  | .recv none => some none

/-- Loop body of the drain in src/unnamed/part_000 lines 108-114: on
`<-c.Done()` return `c.Err()`; on `<-framechan` always continue — the value
is discarded and there is no `ok` check, so a receive from the closed
channel also just continues the loop. -/
def p000DrainStep : DrainEv → Option (Option GoErr)
  | .done => some (some .ctxCanceled)
  | .recv _ => none

/-- Run a drain loop body over a finite sequence of select outcomes:
`some r` if the loop returned `r` on some event of the sequence, `none` if
it was still looping after all of them. -/
def runDrain (f : DrainEv → Option (Option GoErr)) : List DrainEv → Option (Option GoErr)
  | [] => none
  | e :: es =>
    match f e with
    | some r => some r
    | none => runDrain f es

/-- C9 counterexample: on the event sequence in which the channel reports
closed while the cancellation signal has not fired, the drain of
src/main.go terminates returning success, but the drain of
src/unnamed/part_000 is still looping — the two loops are not behaviorally
equivalent, refuting the claim at this concrete event sequence. -/
theorem drain_loops_differ_on_closure :
    runDrain mainDrainStep [DrainEv.recv none] = some none
    ∧ runDrain p000DrainStep [DrainEv.recv none] = none := by
  exact ⟨rfl, rfl⟩

/-- C9 amended: the two drain loops agree on cancellation — whenever the
`<-c.Done()` branch is selected both return the cancellation error — but
they differ on closure: main.go's drain returns success the moment the
closed channel is observed, while part_000's drain never returns off any
channel event (closed or not) and can only ever return the cancellation
error; on a closed channel without cancellation it loops forever. -/
theorem drain_loops_equivalence_amended :
    (∀ es r, runDrain p000DrainStep es = some r → r = some GoErr.ctxCanceled)
    ∧ (∀ es, runDrain mainDrainStep (DrainEv.recv none :: es) = some none)
    ∧ (∀ es, runDrain p000DrainStep (DrainEv.done :: es)
        = runDrain mainDrainStep (DrainEv.done :: es)) := by
  refine ⟨?_, fun es => rfl, fun es => rfl⟩
  intro es
  induction es with
  | nil => intro r h; simp [runDrain] at h
  | cons e es ih =>
      intro r h
      cases e with
      | done =>
          simp [runDrain, p000DrainStep] at h
          exact h.symm
      | recv v =>
          simp [runDrain, p000DrainStep] at h
          exact ih r h

theorem drain_loops_equivalence_amended_witness :
    (some GoErr.ctxCanceled : Option GoErr) = some GoErr.ctxCanceled :=
  drain_loops_equivalence_amended.1 [DrainEv.done] (some GoErr.ctxCanceled) rfl

/-!
Path containment for the storage root (claim C10).  All four handlers
resolve the `:id` route parameter against the `os.Root` opened on the
per-process temporary directory (src/main.go line 72): `storage.Open` /
`storage.Create` / `http.FS(storage.FS())`.  We embed the documented
`os.Root` name resolution lexically: a name is a list of `/`-separated
components, resolved component by component against a stack relative to the
root; a `..` that would pop past the root makes the open fail.  `walk` is
plain (unconfined) path walking from an absolute directory given as its
component list; the soundness lemma says every name `os.Root` admits walks,
from the root directory, to the returned path — which lies under the root.
-/

/-- Lexical resolution of a relative name against a stack of components
below the root: empty and `.` components are skipped, `..` pops (failing if
there is nothing to pop, i.e. the name would escape the root), anything
else pushes. -/
def resolveIn : List String → List String → Option (List String)
  | acc, [] => some acc
  | acc, c :: cs =>
    if c = "" ∨ c = "." then resolveIn acc cs
    else if c = ".." then
      (if acc = [] then none else resolveIn acc.dropLast cs)
    else resolveIn (acc ++ [c]) cs

/-- Confined open per `os.Root`: resolve `name` inside the root; on success the
opened path is the root followed by the resolved components. -/
def openInRoot (root : List String) (name : List String) : Option (List String) :=
  match resolveIn [] name with
  | none => none
  | some p => some (root ++ p)

/-- Unconfined path walking from the absolute directory `p`: what a plain
`open(dir/name)` would traverse, with `..` ascending (and failing only at
the filesystem root). -/
def walk : List String → List String → Option (List String)
  | p, [] => some p
  | p, c :: cs =>
    if c = "" ∨ c = "." then walk p cs
    else if c = ".." then (if p = [] then none else walk p.dropLast cs)
    else walk (p ++ [c]) cs

/-- Predicate: `p` lies inside the directory `root`. -/
def underRoot (root p : List String) : Prop :=
  p.take root.length = root

theorem dropLast_append_left {α : Type} (l₁ l₂ : List α) (h : l₂ ≠ []) :
    (l₁ ++ l₂).dropLast = l₁ ++ l₂.dropLast := by
  induction l₁ with
  | nil => rfl
  | cons a l₁ ih =>
      cases l₁ with
      | nil =>
          cases l₂ with
          | nil => exact absurd rfl h
          | cons b l₂ => simp [List.dropLast]
      | cons b l₁ =>
          simpa [List.dropLast] using ih

theorem resolveIn_walk (root : List String) :
    ∀ cs acc out, resolveIn acc cs = some out →
      walk (root ++ acc) cs = some (root ++ out) := by
  intro cs
  induction cs with
  | nil =>
      intro acc out h
      simp [resolveIn] at h
      simp [walk, h]
  | cons c cs ih =>
      intro acc out h
      by_cases h1 : c = "" ∨ c = "."
      · rw [resolveIn, if_pos h1] at h
        rw [walk, if_pos h1]
        exact ih acc out h
      · by_cases h2 : c = ".."
        · rw [resolveIn, if_neg h1, if_pos h2] at h
          rw [walk, if_neg h1, if_pos h2]
          by_cases h3 : acc = []
          · rw [if_pos h3] at h
            exact absurd h (by simp)
          · rw [if_neg h3] at h
            have hne : root ++ acc ≠ [] := by
              intro hc
              exact h3 (List.append_eq_nil.mp hc).2
            rw [if_neg hne, dropLast_append_left root acc h3]
            exact ih acc.dropLast out h
        · rw [resolveIn, if_neg h1, if_neg h2] at h
          rw [walk, if_neg h1, if_neg h2]
          have := ih (acc ++ [c]) out h
          rwa [← List.append_assoc] at this

/-- Handler `GET /:id` (src/main.go line 86): `ctx.FileFromFS` over
`http.FS(storage.FS())`, the file system confined to the storage root. -/
def getHandlerOpen (root : List String) (id : String) : Option (List String) :=
  openInRoot root [id]

/-- Handler `PUT /:id` (src/main.go line 91): `storage.Create(ctx.Param("id"))`. -/
def putHandlerCreate (root : List String) (id : String) : Option (List String) :=
  openInRoot root [id]

/-- Handler `GET /:id/tag` (src/main.go line 107): `storage.Open(ctx.Param("id"))`. -/
def tagHandlerOpen (root : List String) (id : String) : Option (List String) :=
  openInRoot root [id]

/-- Handler `GET /:id/image` (src/main.go line 128): `storage.Open(ctx.Param("id"))`. -/
def imageHandlerOpen (root : List String) (id : String) : Option (List String) :=
  openInRoot root [id]

/-- C10: every file any of the four handlers opens or creates for an `id`
resolves inside the per-process storage root opened with `os.OpenRoot`:
whenever the confined open succeeds, the path actually walked from the root
is the returned one and it lies under the root — so no file outside the
root is ever read or written — and an `id` whose path would escape the root
(such as `..`) makes the open fail in every handler. -/
theorem handler_opens_within_storage :
    (∀ root id p,
      (getHandlerOpen root id = some p ∨ putHandlerCreate root id = some p
        ∨ tagHandlerOpen root id = some p ∨ imageHandlerOpen root id = some p) →
      underRoot root p ∧ walk root [id] = some p)
    ∧ (∀ root, getHandlerOpen root ".." = none ∧ putHandlerCreate root ".." = none
        ∧ tagHandlerOpen root ".." = none ∧ imageHandlerOpen root ".." = none) := by
  constructor
  · intro root id p hp
    have hopen : openInRoot root [id] = some p := by
      rcases hp with h | h | h | h <;> exact h
    have hres : ∃ q, resolveIn [] [id] = some q ∧ p = root ++ q := by
      unfold openInRoot at hopen
      rcases hq : resolveIn [] [id] with _ | q
      · rw [hq] at hopen; exact absurd hopen (by simp)
      · rw [hq] at hopen
        exact ⟨q, rfl, by injection hopen with h; exact h.symm⟩
    obtain ⟨q, hq, hpq⟩ := hres
    constructor
    · rw [hpq]
      exact List.take_left root q
    · have := resolveIn_walk root [id] [] q hq
      rw [List.append_nil] at this
      rw [hpq]
      exact this
  · intro root
    have h : openInRoot root [".."] = none := by
      unfold openInRoot
      simp [resolveIn]
    exact ⟨h, h, h, h⟩

theorem handler_opens_within_storage_witness :
    underRoot ["tmp", "dicomserving"] ["tmp", "dicomserving", "scan1"]
    ∧ walk ["tmp", "dicomserving"] ["scan1"] = some ["tmp", "dicomserving", "scan1"] :=
  handler_opens_within_storage.1 ["tmp", "dicomserving"] "scan1"
    ["tmp", "dicomserving", "scan1"] (Or.inl (by decide))

end DicomServing
